import Mathlib

/-!
Shallow embedding of the ingestion pipeline of `src/app.py` (Harvard
Artifacts Explorer): paginated HTTP fetch (`fetch_data`), SQLite batch
insertion into three tables (`insert_into_db` over the schema declared in
`create_tables`), and the pass-through query runner (`run_query`).

Machine-level conventions of the platform that the embedding reflects:
* a Python `dict.get(k)` lookup is an `Option` field (`none` = key absent
  or JSON null);
* the SQLite column `id INTEGER PRIMARY KEY` of `artifact_metadata` is an
  alias of the rowid, so it always holds an integer: inserting a record
  whose `id` is NULL makes SQLite auto-assign a fresh rowid (one larger
  than the largest in use, 1 for an empty table), and `INSERT OR REPLACE`
  with an explicit id deletes the conflicting row and inserts the new one;
* Python's `sqlite3` connection opens an implicit transaction at the first
  INSERT and makes it durable only at `conn.commit()`; a connection closed
  (or abandoned) without a commit rolls the open transaction back.
-/

namespace ArtifactsApp

/-- One entry of a raw record's `colors` list; every field is read with
`dict.get` in `src/app.py` lines 137-138, so absent fields are `none`. -/
structure ColorEntry where
  color : Option String
  spectrum : Option String
  hue : Option String
  percent : Option Rat
  css3 : Option String
deriving DecidableEq, Repr

/-- A raw record as returned inside the JSON `records` array: a loosely
typed mapping; exactly the fields that `insert_into_db` reads with
`rec.get(...)` are modelled, each `none` when absent. -/
structure RawRecord where
  id : Option Int
  title : Option String
  culture : Option String
  period : Option String
  century : Option String
  medium : Option String
  dimensions : Option String
  description : Option String
  department : Option String
  classification : Option String
  accessionyear : Option Int
  accessionmethod : Option String
  imagecount : Option Int
  mediacount : Option Int
  colorcount : Option Int
  rank : Option Int
  datebegin : Option Int
  dateend : Option Int
  colors : Option (List ColorEntry)
deriving DecidableEq, Repr

/-- A row of `artifact_metadata` (`create_tables`, `src/app.py` lines
61-67). The `id` column is `INTEGER PRIMARY KEY`, an alias of the SQLite
rowid, hence always an integer and never NULL; all other columns are
nullable. -/
structure MetadataRow where
  id : Int
  title : Option String
  culture : Option String
  period : Option String
  century : Option String
  medium : Option String
  dimensions : Option String
  description : Option String
  department : Option String
  classification : Option String
  accessionyear : Option Int
  accessionmethod : Option String
deriving DecidableEq, Repr

/-- A row of `artifact_media` (`src/app.py` lines 68-73): no primary key,
every column nullable; the foreign key is declared but SQLite does not
enforce it (no `PRAGMA foreign_keys`). -/
structure MediaRow where
  objectid : Option Int
  imagecount : Option Int
  mediacount : Option Int
  colorcount : Option Int
  rank : Option Int
  datebegin : Option Int
  dateend : Option Int
deriving DecidableEq, Repr

/-- A row of `artifact_colors` (`src/app.py` lines 74-79): no primary key,
every column nullable. -/
structure ColorRow where
  objectid : Option Int
  color : Option String
  spectrum : Option String
  hue : Option String
  percent : Option Rat
  css3 : Option String
deriving DecidableEq, Repr

/-- The durable contents of the store `artifacts.db`: the three tables,
each a list of rows (list order = insertion/rowid order, used only as a
bag). -/
structure DB where
  metadata : List MetadataRow
  media : List MediaRow
  colors : List ColorRow
deriving DecidableEq, Repr

/-- The store right after `create_tables` on a fresh file: three empty
tables. -/
def emptyDB : DB := ⟨[], [], []⟩

/-- `create_tables` (`src/app.py` lines 58-81): idempotent
`CREATE TABLE IF NOT EXISTS` — a fresh store gets empty tables, an
existing store is left unchanged. -/
def create_tables (existing : Option DB) : DB :=
  match existing with
  | some db => db
  | none => emptyDB

/-- The metadata row built from one raw record by the `INSERT OR REPLACE`
at `src/app.py` lines 114-123, given the integer `i` the `id` column ends
up holding: every non-key column is the record's field verbatim (`none`
when absent). -/
def mkMetadataRow (i : Int) (rec : RawRecord) : MetadataRow :=
  { id := i
    title := rec.title
    culture := rec.culture
    period := rec.period
    century := rec.century
    medium := rec.medium
    dimensions := rec.dimensions
    description := rec.description
    department := rec.department
    classification := rec.classification
    accessionyear := rec.accessionyear
    accessionmethod := rec.accessionmethod }

/-- The media row built from one raw record by the plain `INSERT` at
`src/app.py` lines 125-130. -/
def mkMediaRow (rec : RawRecord) : MediaRow :=
  { objectid := rec.id
    imagecount := rec.imagecount
    mediacount := rec.mediacount
    colorcount := rec.colorcount
    rank := rec.rank
    datebegin := rec.datebegin
    dateend := rec.dateend }

/-- One color row built from a color entry by the plain `INSERT` at
`src/app.py` lines 134-138; `objectid` is the record's (possibly absent)
id. -/
def mkColorRow (objectid : Option Int) (c : ColorEntry) : ColorRow :=
  { objectid := objectid
    color := c.color
    spectrum := c.spectrum
    hue := c.hue
    percent := c.percent
    css3 := c.css3 }

/-- The color rows one record contributes (`src/app.py` lines 132-138):
the guard `if "colors" in rec and rec["colors"]` skips an absent or empty
(falsy) list; otherwise one row per entry, in list order. -/
def colorRows (rec : RawRecord) : List ColorRow :=
  match rec.colors with
  | none => []
  | some cs => if cs.isEmpty then [] else cs.map (mkColorRow rec.id)

/-- The largest `id` in the metadata table, 0 when empty (SQLite rowids
in this app are positive, see `autoId`). -/
def maxId (tbl : List MetadataRow) : Int :=
  tbl.foldr (fun r m => max r.id m) 0

/-- The rowid SQLite auto-assigns when the `INSERT OR REPLACE` into
`artifact_metadata` supplies NULL for the `INTEGER PRIMARY KEY` column:
one larger than the largest rowid in use (1 for an empty table). -/
def autoId (tbl : List MetadataRow) : Int :=
  maxId tbl + 1

/-- Effect of the `INSERT OR REPLACE INTO artifact_metadata` statement
(`src/app.py` lines 114-123) on the metadata table: with an explicit id,
any conflicting row is deleted and the new row inserted; with an absent
id, SQLite auto-assigns a fresh rowid and the row is appended. -/
def metaUpsert (tbl : List MetadataRow) (rec : RawRecord) : List MetadataRow :=
  match rec.id with
  | some i => tbl.filter (fun r => r.id != i) ++ [mkMetadataRow i rec]
  | none => tbl ++ [mkMetadataRow (autoId tbl) rec]

/-- Effect on the (pending) store of the loop body of `insert_into_db`
for one record (`src/app.py` lines 112-138): metadata upsert, one media
row appended, the record's color rows appended. -/
def processRecord (db : DB) (rec : RawRecord) : DB :=
  { metadata := metaUpsert db.metadata rec
    media := db.media ++ [mkMediaRow rec]
    colors := db.colors ++ colorRows rec }

/-- A `sqlite3` connection as `insert_into_db` uses it: the durable store
it was opened on, and the pending state of its implicit transaction. -/
structure SqliteConn where
  durable : DB
  pending : DB
deriving DecidableEq, Repr

/-- `get_connection()` (`src/app.py` lines 55-56): a fresh connection,
its pending state initially the durable store. -/
def openConn (db : DB) : SqliteConn := ⟨db, db⟩

/-- A `cur.execute(INSERT ...)` group: mutates only the pending state of
the implicit transaction, never the durable store. -/
def execInsert (c : SqliteConn) (f : DB → DB) : SqliteConn :=
  { c with pending := f c.pending }

/-- `conn.commit()`: the pending transaction becomes durable. -/
def commitConn (c : SqliteConn) : SqliteConn :=
  { c with durable := c.pending }

/-- `conn.close()` (or abandonment of the connection): any still-pending
uncommitted transaction is rolled back; the durable store is what
remains. -/
def closeConn (c : SqliteConn) : DB := c.durable

/-- `insert_into_db(records)` (`src/app.py` lines 109-140) on durable
store `db`, run to completion: open a connection, execute the three
inserts for each record in order, commit once after the loop, close. -/
def insert_into_db (records : List RawRecord) (db : DB) : DB :=
  closeConn (commitConn
    (records.foldl (fun c rec => execInsert c (fun d => processRecord d rec)) (openConn db)))

/-- A run of `insert_into_db(records)` that raises while processing the
record at index `k` (0-based): the records before index `k` were executed
into the open transaction, the exception skips `conn.commit()` and
`conn.close()`, and the connection is eventually closed without a commit,
rolling the transaction back. The value is the durable store observed
afterwards (e.g. by the fresh connection of a later `run_query`). -/
def insert_into_db_failRun (records : List RawRecord) (db : DB) (k : Nat) : DB :=
  closeConn
    ((records.take k).foldl (fun c rec => execInsert c (fun d => processRecord d rec)) (openConn db))

/-- The parameters of one `requests.get(BASE_URL, params=...)` call made
by `fetch_data` (`src/app.py` line 90): API key, classification filter,
page size (always 100) and page number. -/
structure Request where
  apikey : String
  classification : String
  size : Nat
  page : Nat
deriving DecidableEq, Repr

/-- What `fetch_data` observes of one HTTP response: the status code, and
the value of `r.json().get("records", [])` — the `records` array, `[]`
when the key is absent (`src/app.py` lines 98-99). -/
structure HttpResp where
  status : Nat
  records : List RawRecord
deriving DecidableEq, Repr

/-- The remote endpoint plus network, as a trace: the `n`-th HTTP request
issued by a fetch (0-based), carrying the given parameters, receives
response `env n req`. -/
def FetchEnv : Type := Nat → Request → HttpResp

/-- The `while len(records) < rows` loop of `fetch_data` (`src/app.py`
lines 89-105). State: `n` = number of requests issued so far, `page` =
page counter, `acc` = accumulated records. A 429 response sleeps and
retries the same page; any other non-200 shows `st.error` and breaks;
an empty `records` array breaks; a non-empty one is appended and the page
counter advances. Each exit returns `records[:rows]` (line 107) together
with a flag telling whether `st.error` was called. `fuel` bounds the
number of requests modelled; `none` means the loop was still running
after `fuel` requests (the source's retry loop is unbounded). The
progress bar and the sleeps are presentation effects with no influence on
the result and are not modelled. -/
def fetchGo (env : FetchEnv) (api_key classification : String) (rows : Nat) :
    Nat → Nat → Nat → List RawRecord → Option (List RawRecord × Bool)
  | 0, _, _, _ => none
  | fuel + 1, n, page, acc =>
    if rows ≤ acc.length then some (acc.take rows, false)
    else
      let resp := env n ⟨api_key, classification, 100, page⟩
      if resp.status = 429 then
        fetchGo env api_key classification rows fuel (n + 1) page acc
      else if resp.status ≠ 200 then
        some (acc.take rows, true)
      else if resp.records.isEmpty then
        some (acc.take rows, false)
      else
        fetchGo env api_key classification rows fuel (n + 1) (page + 1) (acc ++ resp.records)

/-- `fetch_data(classification, rows, api_key)` (`src/app.py` lines
86-107) against environment `env`, allowed to issue at most `fuel`
requests: starts with an empty accumulator at page 1. -/
def fetch_data (classification : String) (rows : Nat) (api_key : String)
    (env : FetchEnv) (fuel : Nat) : Option (List RawRecord × Bool) :=
  fetchGo env api_key classification rows fuel 0 1 []

/-- An environment in which every request succeeds with status 200 and
the source holds exactly the given pages: page `p` (1-based) answers with
the `p`-th element of `pages`, and with an empty array beyond the list
(source exhausted). -/
def envOfPages (pages : List (List RawRecord)) : FetchEnv :=
  fun _ req => ⟨200, pages.getD (req.page - 1) []⟩

/-- The records of a page list, flattened in page order. -/
def pagesFlatten : List (List RawRecord) → List RawRecord
  | [] => []
  | pg :: rest => pg ++ pagesFlatten rest

/-- The color rows a whole batch contributes, in record order. -/
def batchColorRows : List RawRecord → List ColorRow
  | [] => []
  | rec :: rest => colorRows rec ++ batchColorRows rest

/-- A tabular result as `pd.read_sql_query` returns it (a DataFrame):
column names and rows of nullable cells. Its internals are irrelevant to
the claims. -/
structure QueryTable where
  cols : List String
  rows : List (List (Option String))
deriving DecidableEq, Repr

/-- The embedded relational store's execution of one SQL string against a
durable store: a table, or the error the `sqlite3` driver raises (e.g. a
syntax error for malformed SQL). `run_query` is parametric in it; the
store itself is not part of `src/app.py`. -/
def SqlEngine : Type := String → DB → Except String QueryTable

/-- `run_query(query)` (`src/app.py` lines 142-146) on durable store
`db`: opens a fresh connection, runs `pd.read_sql_query(query, conn)` and
closes. There is no `try/except`, so an engine error propagates out of
`run_query` as a raised exception (the `Except.error` of the result); and
the connection never commits, so the durable store is returned unchanged
in every case. -/
def run_query (engine : SqlEngine) (query : String) (db : DB) :
    DB × Except String QueryTable :=
  (db, engine query db)

/-- An engine behaving as `sqlite3` does on a malformed statement: every
query raises a syntax error verbatim. Used as a concrete environment for
the query-error claims. -/
def badEngine : SqlEngine :=
  fun q _ => Except.error ("near " ++ q ++ ": syntax error")

/-- A raw record with every field absent, as `rec.get` sees a record
whose mapping has none of the read keys. -/
def recNone : RawRecord :=
  { id := none, title := none, culture := none, period := none,
    century := none, medium := none, dimensions := none,
    description := none, department := none, classification := none,
    accessionyear := none, accessionmethod := none, imagecount := none,
    mediacount := none, colorcount := none, rank := none,
    datebegin := none, dateend := none, colors := none }

/-- A color entry with every field absent. -/
def centryNone : ColorEntry :=
  { color := none, spectrum := none, hue := none, percent := none, css3 := none }

/-- Concrete record with id 1 and a title, for counterexamples. -/
def recW1 : RawRecord := { recNone with id := some 1, title := some "Amphora" }

/-- Concrete record with id 2, for counterexamples. -/
def recW2 : RawRecord := { recNone with id := some 2 }

/-- Concrete record with id 5 and the older field values, for the upsert
witness. -/
def recOldW : RawRecord := { recNone with id := some 5, title := some "Old" }

/-- Concrete record with id 5 and newer field values, for the upsert
witness. -/
def recNewW : RawRecord := { recNone with id := some 5, title := some "New", culture := some "Greek" }

/-- A store already holding the metadata row of `recOldW`, for witnesses. -/
def dbW : DB := ⟨[mkMetadataRow 5 recOldW], [mkMediaRow recOldW], []⟩

/-- Concrete record with a one-entry color list, for the color witness. -/
def recC : RawRecord := { recNone with id := some 4, colors := some [centryNone] }

/-- Concrete record with a present but empty color list, for the color
witness. -/
def recD : RawRecord := { recNone with id := some 6, colors := some [] }

/-- Environment answering 429 to the first request and 200 with an empty
page afterwards, for the rate-limit witness. -/
def env429 : FetchEnv :=
  fun n _ => if n = 0 then ⟨429, []⟩ else ⟨200, []⟩

/-- Environment answering 500 to every request, for the hard-error
witness. -/
def env500 : FetchEnv :=
  fun _ _ => ⟨500, []⟩

theorem foldl_execInsert (recs : List RawRecord) (c : SqliteConn) :
    recs.foldl (fun c rec => execInsert c (fun d => processRecord d rec)) c
      = ⟨c.durable, recs.foldl processRecord c.pending⟩ := by
  induction recs generalizing c with
  | nil => rfl
  | cons r rs ih => rw [List.foldl_cons, ih]; rfl

theorem insert_into_db_eq_foldl (recs : List RawRecord) (db : DB) :
    insert_into_db recs db = recs.foldl processRecord db := by
  simp [insert_into_db, foldl_execInsert, openConn, commitConn, closeConn]

theorem insert_into_db_failRun_eq (recs : List RawRecord) (db : DB) (k : Nat) :
    insert_into_db_failRun recs db k = db := by
  simp [insert_into_db_failRun, foldl_execInsert, openConn, closeConn]

theorem foldl_processRecord_media (recs : List RawRecord) :
    ∀ db : DB, (recs.foldl processRecord db).media = db.media ++ recs.map mkMediaRow := by
  induction recs with
  | nil => intro db; simp
  | cons r rs ih => intro db; simp [List.foldl_cons, ih, processRecord]

theorem foldl_processRecord_colors (recs : List RawRecord) :
    ∀ db : DB, (recs.foldl processRecord db).colors = db.colors ++ batchColorRows recs := by
  induction recs with
  | nil => intro db; simp [batchColorRows]
  | cons r rs ih => intro db; simp [List.foldl_cons, ih, processRecord, batchColorRows]

theorem foldl_processRecord_metadata (recs : List RawRecord) :
    ∀ db : DB, (recs.foldl processRecord db).metadata = recs.foldl metaUpsert db.metadata := by
  induction recs with
  | nil => intro db; rfl
  | cons r rs ih => intro db; simp [List.foldl_cons, ih, processRecord]

theorem mem_maxId_le (tbl : List MetadataRow) : ∀ r ∈ tbl, r.id ≤ maxId tbl := by
  induction tbl with
  | nil => simp
  | cons a t ih =>
    intro r hr
    rcases List.mem_cons.mp hr with h | h
    · subst h; exact le_max_left _ _
    · exact (ih r h).trans (le_max_right _ _)

theorem autoId_not_mem (tbl : List MetadataRow) :
    autoId tbl ∉ tbl.map MetadataRow.id := by
  intro h
  obtain ⟨r, hr, hid⟩ := List.mem_map.mp h
  have := mem_maxId_le tbl r hr
  simp only [autoId] at hid
  omega

theorem nodup_ids_metaUpsert (tbl : List MetadataRow) (rec : RawRecord)
    (h : (tbl.map MetadataRow.id).Nodup) :
    ((metaUpsert tbl rec).map MetadataRow.id).Nodup := by
  cases hid : rec.id with
  | none =>
    simp only [metaUpsert, hid, List.map_append, List.map_cons, List.map_nil]
    rw [List.nodup_append]
    refine ⟨h, List.nodup_singleton _, ?_⟩
    intro a ha hb
    rw [List.mem_singleton] at hb
    subst hb
    exact absurd ha (by simpa [mkMetadataRow] using autoId_not_mem tbl)
  | some i =>
    simp only [metaUpsert, hid, List.map_append, List.map_cons, List.map_nil]
    rw [List.nodup_append]
    refine ⟨((List.filter_sublist tbl).map MetadataRow.id).nodup h, List.nodup_singleton _, ?_⟩
    intro a ha hb
    rw [List.mem_singleton] at hb
    obtain ⟨r, hr, hrid⟩ := List.mem_map.mp ha
    have hrne : (r.id != i) = true := (List.mem_filter.mp hr).2
    rw [bne_iff_ne] at hrne
    exact hrne (by simpa [mkMetadataRow, hb] using hrid)

theorem nodup_ids_foldl_metaUpsert (recs : List RawRecord) :
    ∀ tbl : List MetadataRow, (tbl.map MetadataRow.id).Nodup →
      ((recs.foldl metaUpsert tbl).map MetadataRow.id).Nodup := by
  induction recs with
  | nil => intro tbl h; exact h
  | cons r rs ih => intro tbl h; exact ih _ (nodup_ids_metaUpsert tbl r h)

theorem mem_metaUpsert_frame (tbl : List MetadataRow) (rec : RawRecord)
    (row : MetadataRow) (hrow : row ∈ tbl)
    (hne : ∀ i : Int, rec.id = some i → row.id ≠ i) :
    row ∈ metaUpsert tbl rec := by
  cases hid : rec.id with
  | none => simp only [metaUpsert, hid]; exact List.mem_append_left _ hrow
  | some i =>
    simp only [metaUpsert, hid]
    exact List.mem_append_left _
      (List.mem_filter.mpr ⟨hrow, by simpa [bne_iff_ne] using hne i hid⟩)

theorem mem_metaUpsert_id_surv (tbl : List MetadataRow) (rec : RawRecord)
    (row : MetadataRow) (hrow : row ∈ tbl) :
    ∃ row' ∈ metaUpsert tbl rec, row'.id = row.id := by
  cases hid : rec.id with
  | none =>
    refine ⟨row, ?_, rfl⟩
    simp only [metaUpsert, hid]
    exact List.mem_append_left _ hrow
  | some i =>
    by_cases hri : row.id = i
    · refine ⟨mkMetadataRow i rec, ?_, by simp [mkMetadataRow, hri]⟩
      simp [metaUpsert, hid]
    · refine ⟨row, ?_, rfl⟩
      simp only [metaUpsert, hid]
      exact List.mem_append_left _ (List.mem_filter.mpr ⟨hrow, by simpa [bne_iff_ne] using hri⟩)

theorem foldl_metaUpsert_frame (recs : List RawRecord) :
    ∀ (tbl : List MetadataRow) (row : MetadataRow), row ∈ tbl →
      row.id ∉ (recs.filterMap RawRecord.id : List Int) →
      row ∈ recs.foldl metaUpsert tbl := by
  induction recs with
  | nil => intro tbl row hrow _; exact hrow
  | cons r rs ih =>
    intro tbl row hrow hnot
    refine ih _ row (mem_metaUpsert_frame tbl r row hrow ?_) ?_
    · intro i hi hri
      refine hnot ?_
      rw [List.filterMap_cons, hi, hri]
      exact List.mem_cons_self _ _
    · intro hmem
      refine hnot ?_
      rw [List.filterMap_cons]
      cases r.id with
      | none => exact hmem
      | some i => exact List.mem_cons_of_mem _ hmem

theorem foldl_metaUpsert_id_surv (recs : List RawRecord) :
    ∀ (tbl : List MetadataRow) (row : MetadataRow), row ∈ tbl →
      ∃ row' ∈ recs.foldl metaUpsert tbl, row'.id = row.id := by
  induction recs with
  | nil => intro tbl row hrow; exact ⟨row, hrow, rfl⟩
  | cons r rs ih =>
    intro tbl row hrow
    obtain ⟨row', h', hid⟩ := mem_metaUpsert_id_surv tbl r row hrow
    obtain ⟨row'', h'', hid'⟩ := ih _ row' h'
    exact ⟨row'', h'', hid'.trans hid⟩

theorem nodup_ids_batches (batches : List (List RawRecord)) :
    ∀ db : DB, (db.metadata.map MetadataRow.id).Nodup →
      (((batches.foldl (fun db recs => insert_into_db recs db) db).metadata.map
        MetadataRow.id)).Nodup := by
  induction batches with
  | nil => intro db h; exact h
  | cons b bs ih =>
    intro db h
    refine ih _ ?_
    show ((insert_into_db b db).metadata.map MetadataRow.id).Nodup
    rw [insert_into_db_eq_foldl, foldl_processRecord_metadata]
    exact nodup_ids_foldl_metaUpsert b _ h

theorem fetchGo_pages_ok (api_key classification : String) (rows : Nat) :
    ∀ (ps : List (List RawRecord)) (env : FetchEnv) (n p : Nat) (acc : List RawRecord),
      (∀ pg ∈ ps, pg ≠ []) →
      (∀ q, env (n + q) ⟨api_key, classification, 100, p + q⟩ = ⟨200, ps.getD q []⟩) →
      fetchGo env api_key classification rows (ps.length + 1) n p acc =
        some ((acc ++ pagesFlatten ps).take rows, false) := by
  intro ps
  induction ps with
  | nil =>
    intro env n p acc _ henv
    have h0 := henv 0
    simp only [Nat.add_zero] at h0
    by_cases hle : rows ≤ acc.length
    · simp [fetchGo, hle, pagesFlatten]
    · simp [fetchGo, hle, h0, pagesFlatten]
  | cons pg rest ih =>
    intro env n p acc hne henv
    have h0 := henv 0
    simp only [Nat.add_zero, List.getD_cons_zero] at h0
    have hpg : pg ≠ [] := hne pg (List.mem_cons_self _ _)
    by_cases hle : rows ≤ acc.length
    · simp [fetchGo, hle, List.take_append_of_le_length hle]
    · have hstep := ih env (n + 1) (p + 1) (acc ++ pg)
        (fun x hx => hne x (List.mem_cons_of_mem _ hx))
        (fun q => by
          have hq := henv (q + 1)
          simpa [Nat.add_assoc, Nat.add_comm, Nat.add_left_comm] using hq)
      simp only [List.length_cons]
      rw [fetchGo]
      simp only [hle, if_false, h0]
      rw [if_neg (by decide), if_neg (by simp), if_neg (by simpa using hpg)]
      rw [hstep, pagesFlatten, List.append_assoc]

/-- Claim C1: for every classification and every positive target count,
when every HTTP request succeeds with status 200 (environment
`envOfPages`, source holding exactly the given non-empty pages),
`fetch_data` returns the flattened pages truncated to the target — a
sequence of raw records of length exactly `min target available`, in page
order with no duplicates across page boundaries, with no error surfaced;
when the source is exhausted (empty page) before the target, everything
accumulated is returned. -/
theorem fetch_returns_min_target_available
    (classification api_key : String) (pages : List (List RawRecord)) (rows : Nat)
    (_hrows : 0 < rows) (hne : ∀ pg ∈ pages, pg ≠ []) :
    fetch_data classification rows api_key (envOfPages pages) (pages.length + 1) =
      some ((pagesFlatten pages).take rows, false) ∧
    ((pagesFlatten pages).take rows).length = min rows (pagesFlatten pages).length := by
  constructor
  · have h := fetchGo_pages_ok api_key classification rows pages (envOfPages pages) 0 1 [] hne
      (fun q => by simp [envOfPages, Nat.add_sub_cancel_left])
    simpa [fetch_data] using h
  · simp [List.length_take]

/-- Witness for C1: target 3, source holding two one-record pages —
fetch returns both records (min 3 2 = 2) with no error. -/
theorem fetch_returns_min_target_available_witness :
    0 < 3 ∧ (∀ pg ∈ [[recW1], [recW2]], pg ≠ ([] : List RawRecord)) ∧
    fetch_data "Coins" 3 "key" (envOfPages [[recW1], [recW2]]) 3 =
      some ((pagesFlatten [[recW1], [recW2]]).take 3, false) ∧
    ((pagesFlatten [[recW1], [recW2]]).take 3).length =
      min 3 (pagesFlatten [[recW1], [recW2]]).length := by
  have h := fetch_returns_min_target_available "Coins" "key" [[recW1], [recW2]] 3
    (by decide) (by decide)
  exact ⟨by decide, by decide, h.1, h.2⟩

/-- Claim C2: after any sequence of batch ingestions from a fresh store,
the metadata table holds at most one row per artifact id (the list of ids
has no duplicate), and re-ingesting a record whose id is already present
replaces every metadata column of that row with the newest record's
values — the only row left with that id is `mkMetadataRow i rec`, a full
overwrite. -/
theorem metadata_upsert_unique_full_overwrite :
    (∀ batches : List (List RawRecord),
      ((batches.foldl (fun db recs => insert_into_db recs db) emptyDB).metadata.map
        MetadataRow.id).Nodup) ∧
    ∀ (db : DB) (rec : RawRecord) (i : Int), rec.id = some i →
      (∃ r ∈ db.metadata, r.id = i) →
      ∀ row ∈ (insert_into_db [rec] db).metadata, row.id = i → row = mkMetadataRow i rec := by
  constructor
  · intro batches
    exact nodup_ids_batches batches emptyDB (by simp [emptyDB])
  · intro db rec i hid _ row hrow hrowid
    rw [insert_into_db_eq_foldl, foldl_processRecord_metadata] at hrow
    simp only [List.foldl_cons, List.foldl_nil, metaUpsert, hid] at hrow
    rcases List.mem_append.mp hrow with h | h
    · have : (row.id != i) = true := (List.mem_filter.mp h).2
      rw [bne_iff_ne] at this
      exact absurd hrowid this
    · exact List.mem_singleton.mp h

/-- Witness for C2: the store already holds id 5 with the old values;
re-ingesting id 5 with new values leaves exactly the new row for id 5. -/
theorem metadata_upsert_unique_full_overwrite_witness :
    recNewW.id = some 5 ∧ (∃ r ∈ dbW.metadata, r.id = 5) ∧
    ∀ row ∈ (insert_into_db [recNewW] dbW).metadata, row.id = 5 →
      row = mkMetadataRow 5 recNewW := by
  exact ⟨rfl, ⟨mkMetadataRow 5 recOldW, by decide, by decide⟩,
    metadata_upsert_unique_full_overwrite.2 dbW recNewW 5 rfl
      ⟨mkMetadataRow 5 recOldW, by decide, by decide⟩⟩

/-- Claim C3 as stated is false; counterexample: `insert_into_db` fails
while processing the second record of `[recW1, recW2]` on an empty store.
The claim predicts the first record's metadata row (id 1) is committed;
the durable store actually holds no row at all, because the single
`conn.commit()` after the loop was never reached and the transaction was
rolled back. -/
theorem failed_batch_commits_nothing_cex :
    ¬ ∃ row ∈ (insert_into_db_failRun [recW1, recW2] emptyDB 1).metadata, row.id = 1 := by
  decide

/-- Claim C3 amended: if a failure occurs partway through
`insert_into_db` processing a batch, the records processed before the
failure are NOT committed — the durable store is exactly its pre-batch
state, because the only `conn.commit()` sits after the whole loop; a run
without failure commits the entire fold. The batch write is all-or-nothing
in effect, not per-statement commit. -/
theorem failed_batch_rolls_back (records : List RawRecord) (db : DB) (k : Nat) :
    insert_into_db_failRun records db k = db ∧
    insert_into_db records db = records.foldl processRecord db :=
  ⟨insert_into_db_failRun_eq records db k, insert_into_db_eq_foldl records db⟩

/-- Claim C4 as stated is false; counterexample: running the malformed
string SELEC 1 through `run_query` against an engine that raises a syntax
error. The claim predicts the error is caught at the query boundary and
only surfaced as a message (no exception escapes); in the code `run_query`
has no `try/except`, so the raised error escapes `run_query` as an
exception. -/
theorem malformed_sql_error_escapes_cex :
    ¬ ∀ e : String, (run_query badEngine "SELEC 1" emptyDB).2 ≠ Except.error e := by
  intro h
  exact h ("near " ++ "SELEC 1" ++ ": syntax error") rfl

/-- Claim C4 amended: running a malformed SQL string through `run_query`
raises a query error that propagates out of `run_query` uncaught and
verbatim (there is no error handling at the query boundary; the Streamlit
runtime outside the program is what keeps the session alive), and it
leaves all previously stored rows in the three tables unchanged — the
per-call connection never commits. -/
theorem run_query_propagates_error_and_preserves_store
    (engine : SqlEngine) (q : String) (db : DB) (e : String)
    (h : engine q db = Except.error e) :
    (run_query engine q db).1 = db ∧ (run_query engine q db).2 = Except.error e :=
  ⟨rfl, by simp [run_query, h]⟩

/-- Witness for the amended C4: the syntax error of SELEC 1 propagates
unchanged and the empty store stays empty. -/
theorem run_query_propagates_error_witness :
    (run_query badEngine "SELEC 1" emptyDB).1 = emptyDB ∧
    (run_query badEngine "SELEC 1" emptyDB).2 =
      Except.error ("near " ++ "SELEC 1" ++ ": syntax error") :=
  run_query_propagates_error_and_preserves_store badEngine "SELEC 1" emptyDB _ rfl

/-- Claim C5: a 429 response makes `fetch_data` retry the same page — one
loop step with a rate-limited response leaves the page counter and the
accumulated records exactly as they were and surfaces nothing; the run
continues as if the request had not happened (only the request counter
advances). -/
theorem rate_limit_retries_same_page
    (env : FetchEnv) (api_key classification : String) (rows fuel n page : Nat)
    (acc : List RawRecord) (hlt : acc.length < rows)
    (h429 : (env n ⟨api_key, classification, 100, page⟩).status = 429) :
    fetchGo env api_key classification rows (fuel + 1) n page acc =
      fetchGo env api_key classification rows fuel (n + 1) page acc := by
  simp [fetchGo, Nat.not_le.mpr hlt, h429]

/-- Witness for C5: an environment whose first answer is 429 — the step
keeps page 1 and the empty accumulator. -/
theorem rate_limit_retries_same_page_witness :
    ([] : List RawRecord).length < 1 ∧
    (env429 0 ⟨"key", "Coins", 100, 1⟩).status = 429 ∧
    fetchGo env429 "key" "Coins" 1 2 0 1 [] = fetchGo env429 "key" "Coins" 1 1 1 1 [] :=
  ⟨by decide, by decide,
    rate_limit_retries_same_page env429 "key" "Coins" 1 1 0 1 [] (by decide) (by decide)⟩

/-- Claim C6: a non-success status other than 429 makes `fetch_data`
abort immediately: the result is the records accumulated so far,
truncated to the target (a no-op here since the loop runs only while
short of the target), with the error flag signalled to the caller — no
exception, independent of any remaining fuel or responses. -/
theorem hard_error_aborts_with_partial_result
    (env : FetchEnv) (api_key classification : String) (rows fuel n page : Nat)
    (acc : List RawRecord) (hlt : acc.length < rows)
    (h1 : (env n ⟨api_key, classification, 100, page⟩).status ≠ 429)
    (h2 : (env n ⟨api_key, classification, 100, page⟩).status ≠ 200) :
    fetchGo env api_key classification rows (fuel + 1) n page acc =
      some (acc.take rows, true) ∧
    acc.take rows = acc := by
  refine ⟨?_, List.take_of_length_le (le_of_lt hlt)⟩
  simp [fetchGo, Nat.not_le.mpr hlt, h1, h2]

/-- Witness for C6: a permanently failing endpoint (status 500) aborts on
the first request with the empty partial result and the error flag. -/
theorem hard_error_aborts_with_partial_result_witness :
    ([] : List RawRecord).length < 1 ∧
    (env500 0 ⟨"key", "Coins", 100, 1⟩).status ≠ 429 ∧
    (env500 0 ⟨"key", "Coins", 100, 1⟩).status ≠ 200 ∧
    fetchGo env500 "key" "Coins" 1 4 0 1 [] = some (([] : List RawRecord).take 1, true) :=
  ⟨by decide, by decide, by decide,
    (hard_error_aborts_with_partial_result env500 "key" "Coins" 1 3 0 1 []
      (by decide) (by decide) (by decide)).1⟩

/-- Claim C7: re-ingesting a batch containing an artifact id already
present in the store appends one media row per record and the records'
color rows to the existing tables — duplicates are added, nothing is
replaced, no conflict handling. -/
theorem reingest_appends_media_and_colors (db : DB) (recs : List RawRecord)
    (_hdup : ∃ rec ∈ recs, ∃ row ∈ db.metadata, rec.id = some row.id) :
    (insert_into_db recs db).media = db.media ++ recs.map mkMediaRow ∧
    (insert_into_db recs db).colors = db.colors ++ batchColorRows recs := by
  rw [insert_into_db_eq_foldl]
  exact ⟨foldl_processRecord_media recs db, foldl_processRecord_colors recs db⟩

/-- Witness for C7: re-ingesting id 5 into a store already holding id 5
appends a second media row instead of replacing the first. -/
theorem reingest_appends_media_and_colors_witness :
    (insert_into_db [recNewW] dbW).media = dbW.media ++ [recNewW].map mkMediaRow ∧
    (insert_into_db [recNewW] dbW).colors = dbW.colors ++ batchColorRows [recNewW] :=
  reingest_appends_media_and_colors dbW [recNewW]
    ⟨recNewW, by decide, mkMetadataRow 5 recOldW, by decide, by decide⟩

/-- Claim C8 as stated is false; counterexample: a record whose mapping
has none of the fields, inserted into the empty store. The claim predicts
the absent id is stored as null in the metadata id column; the id column
is `INTEGER PRIMARY KEY` (a rowid alias), so SQLite auto-assigns the
integer 1 instead. -/
theorem absent_id_not_stored_null_cex :
    ¬ ∀ row ∈ (insert_into_db [recNone] emptyDB).metadata,
        (some row.id : Option Int) = recNone.id := by
  decide

/-- Claim C8 amended: for every raw record, a field absent from the
record's mapping is stored as null in the corresponding column of the
destination row for media rows, color rows and every metadata column
except `id`: the metadata id column is `INTEGER PRIMARY KEY`, so a record
with an absent id gets a fresh auto-assigned integer id rather than null.
The record is never dropped — its metadata row is present and its media
and color rows are appended — and insertion never raises (the inserting
functions are total). -/
theorem absent_fields_stored_null_except_id (db : DB) (rec : RawRecord) :
    (insert_into_db [rec] db).media = db.media ++
      [{ objectid := rec.id, imagecount := rec.imagecount, mediacount := rec.mediacount,
         colorcount := rec.colorcount, rank := rec.rank, datebegin := rec.datebegin,
         dateend := rec.dateend }] ∧
    (insert_into_db [rec] db).colors = db.colors ++
      (match rec.colors with
        | none => []
        | some cs => if cs.isEmpty then [] else cs.map (fun c =>
            { objectid := rec.id, color := c.color, spectrum := c.spectrum, hue := c.hue,
              percent := c.percent, css3 := c.css3 })) ∧
    ∃ i : Int, (rec.id = some i ∨ (rec.id = none ∧ i = autoId db.metadata)) ∧
      { id := i, title := rec.title, culture := rec.culture, period := rec.period,
        century := rec.century, medium := rec.medium, dimensions := rec.dimensions,
        description := rec.description, department := rec.department,
        classification := rec.classification, accessionyear := rec.accessionyear,
        accessionmethod := rec.accessionmethod : MetadataRow }
        ∈ (insert_into_db [rec] db).metadata := by
  rw [insert_into_db_eq_foldl]
  refine ⟨rfl, rfl, ?_⟩
  cases hid : rec.id with
  | some i =>
    refine ⟨i, Or.inl rfl, ?_⟩
    show _ ∈ metaUpsert db.metadata rec
    simp only [metaUpsert, hid]
    exact List.mem_append_right _ (List.mem_singleton.mpr rfl)
  | none =>
    refine ⟨autoId db.metadata, Or.inr ⟨rfl, rfl⟩, ?_⟩
    show _ ∈ metaUpsert db.metadata rec
    simp only [metaUpsert, hid]
    exact List.mem_append_right _ (List.mem_singleton.mpr rfl)

/-- Claim C9: a present non-empty color list expands to exactly one color
row per entry (in order); an absent or empty color list yields zero color
rows; in every case the record's metadata and media insertion still takes
place. -/
theorem color_rows_one_per_entry (db : DB) (rec : RawRecord) :
    (∀ cs : List ColorEntry, rec.colors = some cs → cs ≠ [] →
      (insert_into_db [rec] db).colors = db.colors ++ cs.map (mkColorRow rec.id) ∧
      (insert_into_db [rec] db).colors.length = db.colors.length + cs.length) ∧
    ((rec.colors = none ∨ rec.colors = some []) →
      (insert_into_db [rec] db).colors = db.colors) ∧
    (insert_into_db [rec] db).media = db.media ++ [mkMediaRow rec] ∧
    ∃ i : Int, mkMetadataRow i rec ∈ (insert_into_db [rec] db).metadata := by
  rw [insert_into_db_eq_foldl]
  refine ⟨?_, ?_, rfl, ?_⟩
  · intro cs hcs hne
    have : colorRows rec = cs.map (mkColorRow rec.id) := by
      simp [colorRows, hcs, List.isEmpty_iff, hne]
    constructor
    · show db.colors ++ colorRows rec = _
      rw [this]
    · show (db.colors ++ colorRows rec).length = _
      rw [this]
      simp
  · intro h
    show db.colors ++ colorRows rec = db.colors
    rcases h with h | h <;> simp [colorRows, h]
  · cases hid : rec.id with
    | some i =>
      refine ⟨i, ?_⟩
      show _ ∈ metaUpsert db.metadata rec
      simp only [metaUpsert, hid]
      exact List.mem_append_right _ (List.mem_singleton.mpr rfl)
    | none =>
      refine ⟨autoId db.metadata, ?_⟩
      show _ ∈ metaUpsert db.metadata rec
      simp only [metaUpsert, hid]
      exact List.mem_append_right _ (List.mem_singleton.mpr rfl)

/-- Witness for C9: a record with a one-entry color list produces exactly
that one color row; a record with a present-but-empty list produces
none. -/
theorem color_rows_one_per_entry_witness :
    (insert_into_db [recC] emptyDB).colors =
      emptyDB.colors ++ [centryNone].map (mkColorRow recC.id) ∧
    (insert_into_db [recD] emptyDB).colors = emptyDB.colors :=
  ⟨((color_rows_one_per_entry emptyDB recC).1 [centryNone] rfl (by decide)).1,
    (color_rows_one_per_entry emptyDB recD).2.1 (Or.inr rfl)⟩

/-- Claim C10 (frame effect): a batch insertion never deletes — every
pre-existing metadata id survives, and the media and color tables only
grow by appending (so no existing media or color row is modified or
removed); every metadata row whose id does not occur in the batch is left
unchanged; and exactly one new media row is added per record of the
batch. -/
theorem insert_frame_effect (db : DB) (recs : List RawRecord) :
    (insert_into_db recs db).media = db.media ++ recs.map mkMediaRow ∧
    (insert_into_db recs db).media.length = db.media.length + recs.length ∧
    (insert_into_db recs db).colors = db.colors ++ batchColorRows recs ∧
    (∀ row ∈ db.metadata, row.id ∉ (recs.filterMap RawRecord.id : List Int) →
      row ∈ (insert_into_db recs db).metadata) ∧
    ∀ row ∈ db.metadata, ∃ row' ∈ (insert_into_db recs db).metadata, row'.id = row.id := by
  rw [insert_into_db_eq_foldl]
  refine ⟨foldl_processRecord_media recs db, ?_, foldl_processRecord_colors recs db, ?_, ?_⟩
  · rw [foldl_processRecord_media recs db]
    simp
  · intro row hrow hnot
    rw [foldl_processRecord_metadata]
    exact foldl_metaUpsert_frame recs db.metadata row hrow hnot
  · intro row hrow
    rw [foldl_processRecord_metadata]
    exact foldl_metaUpsert_id_surv recs db.metadata row hrow

/-- Witness for C10: ingesting id 1 into a store holding only id 5 —
the id-5 row survives untouched. -/
theorem insert_frame_effect_witness :
    mkMetadataRow 5 recOldW ∈ (insert_into_db [recW1] dbW).metadata ∧
    ∃ row' ∈ (insert_into_db [recW1] dbW).metadata,
      row'.id = (mkMetadataRow 5 recOldW).id :=
  ⟨(insert_frame_effect dbW [recW1]).2.2.2.1 (mkMetadataRow 5 recOldW) (by decide) (by decide),
    (insert_frame_effect dbW [recW1]).2.2.2.2 (mkMetadataRow 5 recOldW) (by decide)⟩

end ArtifactsApp
